import Mathlib

/-!
Verification development for the recipe-app-api backend.

The repository ships (under src/) the recipe serializers
(src/app/recipe/serializers.py) and the API test suites
(src/app/recipe/tests/test_recipe_api.py, src/app/user/tests/test_user_api.py).
The core models, the views and the nested-write reconciliation procedure live
outside the provided sources, so those parts are modelled from the design
specification (spec.md, sections 3, 4, 6 and 7); each such definition carries a
doc comment beginning with "Modelled from the spec:".  Everything that is
decided by src/app/recipe/serializers.py (field exclusion, read-only fields)
is embedded directly from that file.
-/

set_option autoImplicit false

namespace RecipeApp

/-- Modelled from the spec: a Label (Tag or Ingredient, structurally identical,
spec section 3) — a named, user-scoped tagging entity.  `core.models` is not
under src/. -/
structure Label where
  id : Nat
  user : Nat
  name : String
deriving Repr, DecidableEq

/-- Modelled from the spec: a Recipe record (spec section 3): title, time
estimate in minutes, price (fixed-point decimal, modelled as scaled integer),
optional link, optional description, owning user, and its many-to-many
relation sets to tags and ingredients (modelled as lists of label ids).
`core.models` is not under src/. -/
structure Recipe where
  id : Nat
  user : Nat
  title : String
  time_minutes : Nat
  price : Int
  link : String
  description : String
  tagIds : List Nat
  ingredientIds : List Nat
deriving Repr, DecidableEq

/-- Modelled from the spec: the persistent store — recipe rows, tag rows,
ingredient rows, and the next auto-generated primary keys.  The relational
database is an external collaborator (spec section 1). -/
structure Db where
  recipes : List Recipe
  tags : List Label
  ingredients : List Label
  nextRecipeId : Nat
  nextTagId : Nat
  nextIngredientId : Nat
deriving Repr, DecidableEq

/-- Modelled from the spec: error classes surfaced by the API
(spec section 7).  `forbidden` is present so that "reported as not-found,
never as forbidden" is a contentful statement. -/
inductive ApiError where
  | notFound
  | forbidden
  | badRequest
deriving Repr, DecidableEq

/-- The observable store after an operation: a successful operation installs
the new store, a failed one leaves the old store untouched. -/
def applyExcept {α : Type} (s : α) (r : Except ApiError α) : α :=
  match r with
  | Except.ok s' => s'
  | Except.error _ => s

/-- Modelled from the spec: get-or-create of a Label scoped to a user
(spec section 4.1) — look up an existing Label with (owner, name); if found,
reuse it; otherwise create a new Label owned by `owner` with that name.  The
reconciler itself is not under src/ (only its tests are). -/
def getOrCreateLabel (labels : List Label) (nextId owner : Nat) (nm : String) :
    Label × List Label × Nat :=
  match labels.find? (fun l => l.user == owner && l.name == nm) with
  | some l => (l, labels, nextId)
  | none => (⟨nextId, owner, nm⟩, labels ++ [⟨nextId, owner, nm⟩], nextId + 1)

/-- Modelled from the spec: resolve a requested name list, in input order, to
label ids via get-or-create (spec section 4.1).  Returns the resolved id list
together with the updated label table and next id. -/
def resolveNames (labels : List Label) (nextId owner : Nat) :
    List String → List Nat × List Label × Nat
  | [] => ([], labels, nextId)
  | nm :: rest =>
    let g := getOrCreateLabel labels nextId owner nm
    let r := resolveNames g.2.1 g.2.2 owner rest
    (g.1.id :: r.1, r.2)

/-- Modelled from the spec: the reconciler for the Tag label kind — resolve the
requested names and set the recipe's tag relation set to exactly the resolved
set (full replace semantics, spec section 4.1). -/
def reconcileTags (s : Db) (recipeId owner : Nat) (names : List String) : Db :=
  let res := resolveNames s.tags s.nextTagId owner names
  { s with
      tags := res.2.1
      nextTagId := res.2.2
      recipes := s.recipes.map (fun r => if r.id == recipeId then { r with tagIds := res.1 } else r) }

/-- Modelled from the spec: the reconciler for the Ingredient label kind
(spec section 4.1), identical to the Tag case on its own tables. -/
def reconcileIngredients (s : Db) (recipeId owner : Nat) (names : List String) : Db :=
  let res := resolveNames s.ingredients s.nextIngredientId owner names
  { s with
      ingredients := res.2.1
      nextIngredientId := res.2.2
      recipes := s.recipes.map (fun r => if r.id == recipeId then { r with ingredientIds := res.1 } else r) }

/-- A recipe write payload: every field optional, `none` meaning the field is
absent from the request body.  `user` and `id` can be supplied by a client but
are not serializer-writable (src/app/recipe/serializers.py: user is excluded,
id is read-only). -/
structure Payload where
  title : Option String
  time_minutes : Option Nat
  price : Option Int
  link : Option String
  description : Option String
  user : Option Nat
  id : Option Nat
  tags : Option (List String)
  ingredients : Option (List String)
deriving Repr, DecidableEq

/-- Modelled from the spec: the Recipe model's field names (spec sections 3
and 6; `core.models` is not under src/, the names are those exercised by
src/app/recipe/tests/test_recipe_api.py).  Listed with the auto primary key
first, in the order of the serialized representation of spec section 6. -/
def recipeModelFields : List String :=
  ["id", "title", "time_minutes", "price", "link", "description", "user",
   "tags", "ingredients"]

/-- From src/app/recipe/serializers.py line 14: the list serializer's
`exclude` declaration. -/
def recipeSerializerExclude : List String := ["user", "description"]

/-- From src/app/recipe/serializers.py line 23: the detail serializer's
`exclude` declaration. -/
def recipeDetailSerializerExclude : List String := ["user"]

/-- From src/app/recipe/serializers.py lines 15 and 24: `read_only_fields`
of both serializers. -/
def recipeReadOnlyFields : List String := ["id"]

/-- The field set of the list serializer (model fields minus `exclude`),
following the ModelSerializer field-selection rule applied to the declaration
in src/app/recipe/serializers.py. -/
def recipeSerializerFields : List String :=
  recipeModelFields.filter (fun f => !(recipeSerializerExclude.contains f))

/-- The field set of the detail serializer (model fields minus `exclude`). -/
def recipeDetailSerializerFields : List String :=
  recipeModelFields.filter (fun f => !(recipeDetailSerializerExclude.contains f))

/-- Writable fields of a serializer: its fields minus `read_only_fields`. -/
def writableOf (fields : List String) : List String :=
  fields.filter (fun f => !(recipeReadOnlyFields.contains f))

/-- The writable fields of the detail serializer, which handles recipe
writes.  Excluded fields (user) and read-only fields (id) never reach the
update step. -/
def recipeWritableFields : List String :=
  writableOf recipeDetailSerializerFields

/-- Apply one named writable scalar field of the payload to a recipe row, the
per-field step of the generic serializer update: a field absent from the
payload leaves the row's value.  The relation fields (tags, ingredients) are
handled by the reconciler, not here. -/
def setField (r : Recipe) (f : String) (p : Payload) : Recipe :=
  if f == "title" then { r with title := p.title.getD r.title }
  else if f == "time_minutes" then { r with time_minutes := p.time_minutes.getD r.time_minutes }
  else if f == "price" then { r with price := p.price.getD r.price }
  else if f == "link" then { r with link := p.link.getD r.link }
  else if f == "description" then { r with description := p.description.getD r.description }
  else if f == "user" then { r with user := p.user.getD r.user }
  else if f == "id" then { r with id := p.id.getD r.id }
  else r

/-- Apply the payload's scalar fields over the serializer's writable field
list: only writable fields are ever consulted, so excluded or read-only
fields supplied by the client are silently ignored. -/
def applyWritableScalars (r : Recipe) (p : Payload) : Recipe :=
  recipeWritableFields.foldl (fun acc f => setField acc f p) r

/-- The scalar part of a recipe write: apply the payload's writable scalar
fields to the targeted recipe row. -/
def scalarStep (s : Db) (recipeId : Nat) (p : Payload) : Db :=
  { s with recipes := s.recipes.map (fun r => if r.id == recipeId then applyWritableScalars r p else r) }

/-- Modelled from the spec: the Tag part of a recipe write — invoke the
reconciler exactly when the payload contains the tags field; an absent field
leaves the relations untouched (spec section 4.1). -/
def tagsStep (s : Db) (recipeId owner : Nat) (p : Payload) : Db :=
  match p.tags with
  | none => s
  | some names => reconcileTags s recipeId owner names

/-- Modelled from the spec: the Ingredient part of a recipe write, as for
tags. -/
def ingredientsStep (s : Db) (recipeId owner : Nat) (p : Payload) : Db :=
  match p.ingredients with
  | none => s
  | some names => reconcileIngredients s recipeId owner names

/-- Modelled from the spec: the Recipe Store update path (spec section 4.2) —
look up the recipe scoped to the owner (not-found when the requester does not
own it, never forbidden), apply scalar changes through the serializer's
writable fields, then invoke the reconciler once per label kind present in
the payload; absent label kinds are untouched.  The views are not under
src/. -/
def updateRecipe (s : Db) (owner recipeId : Nat) (p : Payload) : Except ApiError Db :=
  match s.recipes.find? (fun r => r.id == recipeId && r.user == owner) with
  | none => Except.error ApiError.notFound
  | some _ =>
    Except.ok (ingredientsStep (tagsStep (scalarStep s recipeId p) recipeId owner p) recipeId owner p)

/-- The recipe row the create path persists: the payload's writable scalar
fields applied over a blank row carrying the fresh primary key and the
requesting user as owner. -/
def newRecipeRow (s : Db) (owner : Nat) (p : Payload) : Recipe :=
  applyWritableScalars
    { id := s.nextRecipeId, user := owner, title := "", time_minutes := 0,
      price := 0, link := "", description := "", tagIds := [], ingredientIds := [] } p

/-- Modelled from the spec: the Recipe Store create path (spec section 4.2) —
persist the scalar fields first with a fresh primary key and the requesting
user as owner, then invoke the reconciler once per label kind present in the
payload.  The views are not under src/. -/
def createRecipe (s : Db) (owner : Nat) (p : Payload) : Db :=
  let r := newRecipeRow s owner p
  let s1 : Db := { s with recipes := s.recipes ++ [r], nextRecipeId := s.nextRecipeId + 1 }
  ingredientsStep (tagsStep s1 r.id owner p) r.id owner p

/-- Modelled from the spec: the Recipe Store delete path (spec section 4.2) —
the lookup is scoped to the owner, so a recipe owned by someone else yields
not-found and nothing is removed.  The views are not under src/. -/
def deleteRecipe (s : Db) (owner recipeId : Nat) : Except ApiError Db :=
  match s.recipes.find? (fun r => r.id == recipeId && r.user == owner) with
  | none => Except.error ApiError.notFound
  | some _ =>
    Except.ok { s with recipes := s.recipes.filter (fun r => !(r.id == recipeId)) }

/-- A value in a serialized representation. -/
inductive RepValue where
  | n : Nat → RepValue
  | i : Int → RepValue
  | s : String → RepValue
  | names : List String → RepValue
deriving Repr, DecidableEq

/-- The names of the labels a relation id list points at, in relation order. -/
def labelNames (labels : List Label) (ids : List Nat) : List String :=
  ids.filterMap (fun i => (labels.find? (fun l => l.id == i)).map Label.name)

/-- The serialized value of one recipe field (spec section 6: relation fields
render as label name lists; `core.models` is not under src/, so the field
typing follows the spec's data model). -/
def fieldValue (db : Db) (r : Recipe) (f : String) : RepValue :=
  if f == "id" then RepValue.n r.id
  else if f == "title" then RepValue.s r.title
  else if f == "time_minutes" then RepValue.n r.time_minutes
  else if f == "price" then RepValue.i r.price
  else if f == "link" then RepValue.s r.link
  else if f == "description" then RepValue.s r.description
  else if f == "user" then RepValue.n r.user
  else if f == "tags" then RepValue.names (labelNames db.tags r.tagIds)
  else RepValue.names (labelNames db.ingredients r.ingredientIds)

/-- Serialize a recipe over a serializer's field list, as an ordered
association list from field name to serialized value. -/
def serializeWith (fields : List String) (db : Db) (r : Recipe) : List (String × RepValue) :=
  fields.map (fun f => (f, fieldValue db r f))

/-- The list-view representation of a recipe
(src/app/recipe/serializers.py, RecipeSerializer). -/
def serializeListView (db : Db) (r : Recipe) : List (String × RepValue) :=
  serializeWith recipeSerializerFields db r

/-- The detail-view representation of a recipe
(src/app/recipe/serializers.py, RecipeDetailSerializer). -/
def serializeDetailView (db : Db) (r : Recipe) : List (String × RepValue) :=
  serializeWith recipeDetailSerializerFields db r

/-- Modelled from the spec: a User row (spec section 3).  The password is kept
abstract; hashing is delegated to the framework (spec section 1), so only its
length at registration matters here.  `core.models` is not under src/. -/
structure User where
  email : String
  password : String
  name : String
deriving Repr, DecidableEq

/-- Modelled from the spec: the user store. -/
structure UserDb where
  users : List User
deriving Repr, DecidableEq

/-- Modelled from the spec: the minimum password length accepted at
registration (spec section 4.3: 5 characters). -/
def minPasswordLength : Nat := 5

/-- Modelled from the spec: `register(email, password, name)` of the User
Store (spec section 4.3) — fails with a validation error if the email is
already registered or the password is shorter than the minimum length, and
only a successful registration adds a User row.  The user serializer and
manager are not under src/ (only their tests are). -/
def register (s : UserDb) (email password nm : String) : Except ApiError UserDb :=
  if s.users.any (fun u => u.email == email) then Except.error ApiError.badRequest
  else if password.length < minPasswordLength then Except.error ApiError.badRequest
  else Except.ok { users := s.users ++ [⟨email, password, nm⟩] }

/-- Modelled from the spec: fallible get-or-create used to state the
all-or-nothing transaction policy (spec sections 5 and 7): creating a new
label row can fail (`canCreate` says which names the store accepts), and a
failure aborts the whole resolution. -/
def resolveNamesE (canCreate : String → Bool) (labels : List Label) (nextId owner : Nat) :
    List String → Except ApiError (List Nat × List Label × Nat)
  | [] => Except.ok ([], labels, nextId)
  | nm :: rest =>
    match labels.find? (fun l => l.user == owner && l.name == nm) with
    | some l =>
      match resolveNamesE canCreate labels nextId owner rest with
      | Except.error e => Except.error e
      | Except.ok r => Except.ok (l.id :: r.1, r.2)
    | none =>
      if canCreate nm then
        match resolveNamesE canCreate (labels ++ [⟨nextId, owner, nm⟩]) (nextId + 1) owner rest with
        | Except.error e => Except.error e
        | Except.ok r => Except.ok (nextId :: r.1, r.2)
      else Except.error ApiError.badRequest

/-- Modelled from the spec: the combined scalar-update-plus-reconciliation
write, run inside one atomic transaction (spec sections 5 and 7): any failure
during label resolution yields an error result and the transaction commits
nothing. -/
def updateRecipeTx (canCreate : String → Bool) (s : Db) (owner recipeId : Nat) (p : Payload) :
    Except ApiError Db :=
  match s.recipes.find? (fun r => r.id == recipeId && r.user == owner) with
  | none => Except.error ApiError.notFound
  | some _ =>
    let s1 : Db := { s with recipes := s.recipes.map (fun r => if r.id == recipeId then applyWritableScalars r p else r) }
    let step2 : Except ApiError Db :=
      match p.tags with
      | none => Except.ok s1
      | some names =>
        match resolveNamesE canCreate s1.tags s1.nextTagId owner names with
        | Except.error e => Except.error e
        | Except.ok res =>
          Except.ok { s1 with
            tags := res.2.1
            nextTagId := res.2.2
            recipes := s1.recipes.map (fun r => if r.id == recipeId then { r with tagIds := res.1 } else r) }
    match step2 with
    | Except.error e => Except.error e
    | Except.ok s2 =>
      match p.ingredients with
      | none => Except.ok s2
      | some names =>
        match resolveNamesE canCreate s2.ingredients s2.nextIngredientId owner names with
        | Except.error e => Except.error e
        | Except.ok res =>
          Except.ok { s2 with
            ingredients := res.2.1
            nextIngredientId := res.2.2
            recipes := s2.recipes.map (fun r => if r.id == recipeId then { r with ingredientIds := res.1 } else r) }

/-! ### Concrete fixtures, mirroring the repository's test data -/

/-- The empty payload: no field present in the request body. -/
def plEmpty : Payload :=
  { title := none, time_minutes := none, price := none, link := none,
    description := none, user := none, id := none, tags := none, ingredients := none }

/-- Payload of test_assign_tag_on_update: tags set to one existing name. -/
def plTagsLunch : Payload := { plEmpty with tags := some ["Lunch"] }

/-- A payload replacing both relation sets: tags by "Lunch" (as in
test_assign_tag_on_update) and ingredients by "Salt". -/
def plLunchSalt : Payload :=
  { plEmpty with tags := some ["Lunch"], ingredients := some ["Salt"] }

/-- Payload of test_partial_update: only the title, no tags key. -/
def plTitleOnly : Payload := { plEmpty with title := some "New recipe title" }

/-- Payload of test_update_user_returns_error: an attempt to change the
owner. -/
def plUserChange : Payload := { plEmpty with user := some 2 }

/-- A payload requesting one brand-new tag name. -/
def plTagsNew : Payload := { plEmpty with tags := some ["New"] }

/-- A store owned by user 1 with one recipe (id 10), one existing tag
(id 5, "Indian") and one existing ingredient (id 7, "Indian"), mirroring the
Pongal scenario of the test suite on both label kinds. -/
def dbA : Db :=
  { recipes := [{ id := 10, user := 1, title := "Pongal", time_minutes := 60,
                  price := 450, link := "", description := "", tagIds := [],
                  ingredientIds := [] }],
    tags := [⟨5, 1, "Indian"⟩],
    ingredients := [⟨7, 1, "Indian"⟩],
    nextRecipeId := 11, nextTagId := 6, nextIngredientId := 8 }

/-- A recipe owned by user 2, targeted by requests from user 1 in the
cross-user scenarios. -/
def recipeOfUser2 : Recipe :=
  { id := 10, user := 2, title := "Sample recipe title", time_minutes := 22,
    price := 525, link := "", description := "", tagIds := [], ingredientIds := [] }

/-- A store holding only user 2's recipe, mirroring
test_delete_other_users_recipe_error. -/
def dbB : Db :=
  { recipes := [recipeOfUser2], tags := [], ingredients := [],
    nextRecipeId := 11, nextTagId := 1, nextIngredientId := 1 }

/-! ### Helper lemmas about the embedded operations -/

lemma getOrCreate_found (labels : List Label) (nextId owner : Nat) (nm : String) (l : Label)
    (hf : labels.find? (fun x => x.user == owner && x.name == nm) = some l) :
    getOrCreateLabel labels nextId owner nm = (l, labels, nextId) := by
  unfold getOrCreateLabel
  rw [hf]

lemma getOrCreate_new (labels : List Label) (nextId owner : Nat) (nm : String)
    (hf : labels.find? (fun x => x.user == owner && x.name == nm) = none) :
    getOrCreateLabel labels nextId owner nm =
      (⟨nextId, owner, nm⟩, labels ++ [⟨nextId, owner, nm⟩], nextId + 1) := by
  unfold getOrCreateLabel
  rw [hf]

lemma resolveNames_cons_found (labels : List Label) (nextId owner : Nat) (nm : String)
    (rest : List String) (l : Label)
    (hf : labels.find? (fun x => x.user == owner && x.name == nm) = some l) :
    resolveNames labels nextId owner (nm :: rest) =
      (l.id :: (resolveNames labels nextId owner rest).1,
       (resolveNames labels nextId owner rest).2) := by
  simp [resolveNames, getOrCreate_found labels nextId owner nm l hf]

lemma resolveNames_cons_new (labels : List Label) (nextId owner : Nat) (nm : String)
    (rest : List String)
    (hf : labels.find? (fun x => x.user == owner && x.name == nm) = none) :
    resolveNames labels nextId owner (nm :: rest) =
      (nextId :: (resolveNames (labels ++ [⟨nextId, owner, nm⟩]) (nextId + 1) owner rest).1,
       (resolveNames (labels ++ [⟨nextId, owner, nm⟩]) (nextId + 1) owner rest).2) := by
  simp [resolveNames, getOrCreate_new labels nextId owner nm hf]

/-- The reconciler only ever appends label rows, and every appended row is
owned by the requesting user. -/
lemma resolveNames_labels_grow (owner : Nat) :
    ∀ (names : List String) (labels : List Label) (nextId : Nat),
      ∃ ext, (resolveNames labels nextId owner names).2.1 = labels ++ ext ∧
        ∀ l ∈ ext, l.user = owner := by
  intro names
  induction names with
  | nil =>
    intro labels nextId
    exact ⟨[], by simp [resolveNames]⟩
  | cons nm rest ih =>
    intro labels nextId
    cases hf : labels.find? (fun x => x.user == owner && x.name == nm) with
    | some l =>
      rw [resolveNames_cons_found labels nextId owner nm rest l hf]
      exact ih labels nextId
    | none =>
      rw [resolveNames_cons_new labels nextId owner nm rest hf]
      obtain ⟨ext, he, hown⟩ := ih (labels ++ [⟨nextId, owner, nm⟩]) (nextId + 1)
      refine ⟨⟨nextId, owner, nm⟩ :: ext, ?_, ?_⟩
      · simpa [List.append_assoc] using he
      · intro l hl
        rcases List.mem_cons.mp hl with h1 | h2
        · rw [h1]
        · exact hown l h2

lemma setField_tagIds (r : Recipe) (f : String) (p : Payload) :
    (setField r f p).tagIds = r.tagIds := by
  unfold setField
  split_ifs <;> rfl

lemma setField_ingredientIds (r : Recipe) (f : String) (p : Payload) :
    (setField r f p).ingredientIds = r.ingredientIds := by
  unfold setField
  split_ifs <;> rfl

lemma setField_id (r : Recipe) (f : String) (p : Payload) (h : f ≠ "id") :
    (setField r f p).id = r.id := by
  unfold setField
  split_ifs with h1 h2 h3 h4 h5 h6 h7
  · rfl
  · rfl
  · rfl
  · rfl
  · rfl
  · rfl
  · exact absurd (eq_of_beq h7) h
  · rfl

lemma setField_user (r : Recipe) (f : String) (p : Payload) (h : f ≠ "user") :
    (setField r f p).user = r.user := by
  unfold setField
  split_ifs with h1 h2 h3 h4 h5 h6 h7
  · rfl
  · rfl
  · rfl
  · rfl
  · rfl
  · exact absurd (eq_of_beq h6) h
  · rfl
  · rfl

lemma foldl_setField_pres {γ : Type} (π : Recipe → γ) (p : Payload) :
    ∀ (fields : List String), (∀ r f, f ∈ fields → π (setField r f p) = π r) →
      ∀ r, π (fields.foldl (fun acc f => setField acc f p) r) = π r := by
  intro fields
  induction fields with
  | nil =>
    intro _ r
    rfl
  | cons a t ih =>
    intro hp r
    have h1 : π (setField r a p) = π r := hp r a (List.mem_cons_self a t)
    have h2 := ih (fun r' f hf => hp r' f (List.mem_cons_of_mem a hf)) (setField r a p)
    rw [List.foldl_cons, h2, h1]

lemma applyWritableScalars_id (r : Recipe) (p : Payload) :
    (applyWritableScalars r p).id = r.id := by
  refine foldl_setField_pres Recipe.id p recipeWritableFields ?_ r
  intro r' f hf
  have hid : ("id" : String) ∉ recipeWritableFields := by decide
  exact setField_id r' f p (fun h => hid (h ▸ hf))

lemma applyWritableScalars_user (r : Recipe) (p : Payload) :
    (applyWritableScalars r p).user = r.user := by
  refine foldl_setField_pres Recipe.user p recipeWritableFields ?_ r
  intro r' f hf
  have hu : ("user" : String) ∉ recipeWritableFields := by decide
  exact setField_user r' f p (fun h => hu (h ▸ hf))

lemma applyWritableScalars_tagIds (r : Recipe) (p : Payload) :
    (applyWritableScalars r p).tagIds = r.tagIds := by
  refine foldl_setField_pres Recipe.tagIds p recipeWritableFields ?_ r
  intro r' f _
  exact setField_tagIds r' f p

lemma applyWritableScalars_ingredientIds (r : Recipe) (p : Payload) :
    (applyWritableScalars r p).ingredientIds = r.ingredientIds := by
  refine foldl_setField_pres Recipe.ingredientIds p recipeWritableFields ?_ r
  intro r' f _
  exact setField_ingredientIds r' f p

lemma newRecipeRow_id (s : Db) (owner : Nat) (p : Payload) :
    (newRecipeRow s owner p).id = s.nextRecipeId :=
  applyWritableScalars_id _ p

lemma newRecipeRow_user (s : Db) (owner : Nat) (p : Payload) :
    (newRecipeRow s owner p).user = owner :=
  applyWritableScalars_user _ p

@[simp]
lemma applyExcept_ok {α : Type} (s s' : α) : applyExcept s (Except.ok s') = s' := rfl

@[simp]
lemma applyExcept_error {α : Type} (s : α) (e : ApiError) :
    applyExcept s (Except.error e) = s := rfl

lemma map_map_proj {γ : Type} (φ : Recipe → Recipe) (π : Recipe → γ)
    (h : ∀ r, π (φ r) = π r) : ∀ l : List Recipe, (l.map φ).map π = l.map π := by
  intro l
  induction l with
  | nil => rfl
  | cons a t ih => simp [h a, ih]

lemma scalarStep_map {γ : Type} (s : Db) (rid : Nat) (p : Payload) (π : Recipe → γ)
    (h : ∀ r, π (applyWritableScalars r p) = π r) :
    (scalarStep s rid p).recipes.map π = s.recipes.map π := by
  refine map_map_proj _ π ?_ s.recipes
  intro r
  by_cases hr : r.id == rid
  · simp [hr, h r]
  · simp [hr]

lemma reconcileTags_map {γ : Type} (s : Db) (rid owner : Nat) (names : List String)
    (π : Recipe → γ) (h : ∀ r ids, π { r with tagIds := ids } = π r) :
    (reconcileTags s rid owner names).recipes.map π = s.recipes.map π := by
  refine map_map_proj _ π ?_ s.recipes
  intro r
  by_cases hr : r.id == rid
  · simp [hr, h r]
  · simp [hr]

lemma reconcileIngredients_map {γ : Type} (s : Db) (rid owner : Nat) (names : List String)
    (π : Recipe → γ) (h : ∀ r ids, π { r with ingredientIds := ids } = π r) :
    (reconcileIngredients s rid owner names).recipes.map π = s.recipes.map π := by
  refine map_map_proj _ π ?_ s.recipes
  intro r
  by_cases hr : r.id == rid
  · simp [hr, h r]
  · simp [hr]

lemma tagsStep_map {γ : Type} (s : Db) (rid owner : Nat) (p : Payload)
    (π : Recipe → γ) (h : ∀ r ids, π { r with tagIds := ids } = π r) :
    (tagsStep s rid owner p).recipes.map π = s.recipes.map π := by
  cases hp : p.tags with
  | none => simp [tagsStep, hp]
  | some names => simp [tagsStep, hp, reconcileTags_map s rid owner names π h]

lemma ingredientsStep_map {γ : Type} (s : Db) (rid owner : Nat) (p : Payload)
    (π : Recipe → γ) (h : ∀ r ids, π { r with ingredientIds := ids } = π r) :
    (ingredientsStep s rid owner p).recipes.map π = s.recipes.map π := by
  cases hp : p.ingredients with
  | none => simp [ingredientsStep, hp]
  | some names => simp [ingredientsStep, hp, reconcileIngredients_map s rid owner names π h]

lemma scalarStep_tables (s : Db) (rid : Nat) (p : Payload) :
    (scalarStep s rid p).tags = s.tags ∧
    (scalarStep s rid p).ingredients = s.ingredients ∧
    (scalarStep s rid p).nextTagId = s.nextTagId ∧
    (scalarStep s rid p).nextIngredientId = s.nextIngredientId :=
  ⟨rfl, rfl, rfl, rfl⟩

lemma tagsStep_ingredients (s : Db) (rid owner : Nat) (p : Payload) :
    (tagsStep s rid owner p).ingredients = s.ingredients ∧
    (tagsStep s rid owner p).nextIngredientId = s.nextIngredientId := by
  cases hp : p.tags with
  | none => simp [tagsStep, hp]
  | some names => simp [tagsStep, hp, reconcileTags]

lemma ingredientsStep_tags (s : Db) (rid owner : Nat) (p : Payload) :
    (ingredientsStep s rid owner p).tags = s.tags ∧
    (ingredientsStep s rid owner p).nextTagId = s.nextTagId := by
  cases hp : p.ingredients with
  | none => simp [ingredientsStep, hp]
  | some names => simp [ingredientsStep, hp, reconcileIngredients]

lemma updateRecipe_found (s : Db) (owner rid : Nat) (p : Payload) (r0 : Recipe)
    (hf : s.recipes.find? (fun r => r.id == rid && r.user == owner) = some r0) :
    updateRecipe s owner rid p =
      Except.ok (ingredientsStep (tagsStep (scalarStep s rid p) rid owner p) rid owner p) := by
  unfold updateRecipe
  rw [hf]

lemma updateRecipe_notFound (s : Db) (owner rid : Nat) (p : Payload)
    (hf : s.recipes.find? (fun r => r.id == rid && r.user == owner) = none) :
    updateRecipe s owner rid p = Except.error ApiError.notFound := by
  unfold updateRecipe
  rw [hf]

/-- In the state produced by the tag reconciler, every row carrying the
targeted id holds exactly the resolved id list. -/
lemma reconcileTags_target (s : Db) (rid owner : Nat) (names : List String) :
    ∀ r' ∈ (reconcileTags s rid owner names).recipes, r'.id = rid →
      r'.tagIds = (resolveNames s.tags s.nextTagId owner names).1 := by
  intro r' hr' hid
  simp only [reconcileTags, List.mem_map] at hr'
  obtain ⟨r0, _, he⟩ := hr'
  by_cases h0 : r0.id == rid
  · rw [← he]
    simp [h0]
  · rw [← he] at hid
    simp [h0] at hid
    exact absurd (beq_iff_eq.mpr hid) h0

/-- The ingredient step never touches tag relations: the target-row tag
property survives it. -/
lemma ingredientsStep_target_tagIds (s : Db) (rid owner : Nat) (p : Payload) (ids : List Nat)
    (h : ∀ r' ∈ s.recipes, r'.id = rid → r'.tagIds = ids) :
    ∀ r' ∈ (ingredientsStep s rid owner p).recipes, r'.id = rid → r'.tagIds = ids := by
  cases hp : p.ingredients with
  | none =>
    simpa [ingredientsStep, hp] using h
  | some names =>
    intro r' hr' hid
    simp only [ingredientsStep, hp, reconcileIngredients, List.mem_map] at hr'
    obtain ⟨r0, hr0, he⟩ := hr'
    by_cases h0 : r0.id == rid
    · rw [← he]
      rw [← he] at hid
      simp [h0] at hid ⊢
      exact h r0 hr0 hid
    · rw [← he]
      rw [← he] at hid
      simp [h0] at hid ⊢
      exact h r0 hr0 hid

/-- After a successful update whose payload carries a tag name list, every
row with the targeted id holds exactly the resolved id list. -/
lemma update_target_tagIds (s : Db) (owner rid : Nat) (p : Payload) (names : List String)
    (r0 : Recipe)
    (hf : s.recipes.find? (fun r => r.id == rid && r.user == owner) = some r0)
    (hp : p.tags = some names) :
    ∀ r' ∈ (applyExcept s (updateRecipe s owner rid p)).recipes, r'.id = rid →
      r'.tagIds = (resolveNames s.tags s.nextTagId owner names).1 := by
  rw [updateRecipe_found s owner rid p r0 hf, applyExcept_ok]
  have h2 : tagsStep (scalarStep s rid p) rid owner p =
      reconcileTags (scalarStep s rid p) rid owner names := by
    simp [tagsStep, hp]
  rw [h2]
  exact ingredientsStep_target_tagIds _ rid owner p _
    (reconcileTags_target (scalarStep s rid p) rid owner names)

/-- Mirror of reconcileTags_target for the Ingredient kind. -/
lemma reconcileIngredients_target (s : Db) (rid owner : Nat) (names : List String) :
    ∀ r' ∈ (reconcileIngredients s rid owner names).recipes, r'.id = rid →
      r'.ingredientIds = (resolveNames s.ingredients s.nextIngredientId owner names).1 := by
  intro r' hr' hid
  simp only [reconcileIngredients, List.mem_map] at hr'
  obtain ⟨r0, _, he⟩ := hr'
  by_cases h0 : r0.id == rid
  · rw [← he]
    simp [h0]
  · rw [← he] at hid
    simp [h0] at hid
    exact absurd (beq_iff_eq.mpr hid) h0

/-- After the two reconciler steps on any base state, every row with the
targeted id holds the resolved ingredient id list (when the ingredients field
is present). -/
lemma steps_target_ingredientIds (s : Db) (rid owner : Nat) (p : Payload) (names : List String)
    (hp : p.ingredients = some names) :
    ∀ r' ∈ (ingredientsStep (tagsStep s rid owner p) rid owner p).recipes, r'.id = rid →
      r'.ingredientIds = (resolveNames s.ingredients s.nextIngredientId owner names).1 := by
  have h2 : ingredientsStep (tagsStep s rid owner p) rid owner p =
      reconcileIngredients (tagsStep s rid owner p) rid owner names := by
    simp [ingredientsStep, hp]
  rw [h2]
  intro r' hr' hid
  rw [reconcileIngredients_target (tagsStep s rid owner p) rid owner names r' hr' hid,
    (tagsStep_ingredients s rid owner p).1, (tagsStep_ingredients s rid owner p).2]

/-- Ingredient analogue of update_target_tagIds. -/
lemma update_target_ingredientIds (s : Db) (owner rid : Nat) (p : Payload)
    (names : List String) (r0 : Recipe)
    (hf : s.recipes.find? (fun r => r.id == rid && r.user == owner) = some r0)
    (hp : p.ingredients = some names) :
    ∀ r' ∈ (applyExcept s (updateRecipe s owner rid p)).recipes, r'.id = rid →
      r'.ingredientIds = (resolveNames s.ingredients s.nextIngredientId owner names).1 := by
  rw [updateRecipe_found s owner rid p r0 hf, applyExcept_ok]
  exact steps_target_ingredientIds (scalarStep s rid p) rid owner p names hp

/-- C2: For every recipe update whose payload includes a label name list of
either kind, after the operation the targeted recipe's relation set of that
kind equals exactly the set resolved from the requested names (full
replacement, independent of the prior relations), and an explicitly empty
list leaves the relation set of that kind empty — stated for the Tag kind and
the Ingredient kind. -/
theorem labels_full_replacement (s : Db) (owner rid : Nat) (p : Payload)
    (hfind : (s.recipes.find? (fun r => r.id == rid && r.user == owner)).isSome) :
    (∀ names, p.tags = some names →
      (∀ r' ∈ (applyExcept s (updateRecipe s owner rid p)).recipes, r'.id = rid →
          r'.tagIds = (resolveNames s.tags s.nextTagId owner names).1)
      ∧ (names = [] →
          ∀ r' ∈ (applyExcept s (updateRecipe s owner rid p)).recipes, r'.id = rid →
            r'.tagIds = []))
    ∧ (∀ names, p.ingredients = some names →
      (∀ r' ∈ (applyExcept s (updateRecipe s owner rid p)).recipes, r'.id = rid →
          r'.ingredientIds = (resolveNames s.ingredients s.nextIngredientId owner names).1)
      ∧ (names = [] →
          ∀ r' ∈ (applyExcept s (updateRecipe s owner rid p)).recipes, r'.id = rid →
            r'.ingredientIds = [])) := by
  obtain ⟨r0, hf⟩ := Option.isSome_iff_exists.mp hfind
  constructor
  · intro names hp
    refine ⟨update_target_tagIds s owner rid p names r0 hf hp, ?_⟩
    intro hnil r' hr' hid
    rw [update_target_tagIds s owner rid p names r0 hf hp r' hr' hid, hnil]
    rfl
  · intro names hp
    refine ⟨update_target_ingredientIds s owner rid p names r0 hf hp, ?_⟩
    intro hnil r' hr' hid
    rw [update_target_ingredientIds s owner rid p names r0 hf hp r' hr' hid, hnil]
    rfl

/-- C3: For every recipe update whose payload does not contain the label list
field for a given kind (field absent, as opposed to present and empty), every
recipe keeps its relation set of that kind and the label table of that kind
is untouched — stated for the Tag kind and the Ingredient kind. -/
theorem omitted_labels_untouched (s : Db) (owner rid : Nat) (p : Payload) :
    (p.tags = none →
      (applyExcept s (updateRecipe s owner rid p)).recipes.map (fun r => (r.id, r.tagIds)) =
        s.recipes.map (fun r => (r.id, r.tagIds))
      ∧ (applyExcept s (updateRecipe s owner rid p)).tags = s.tags)
    ∧ (p.ingredients = none →
      (applyExcept s (updateRecipe s owner rid p)).recipes.map (fun r => (r.id, r.ingredientIds)) =
        s.recipes.map (fun r => (r.id, r.ingredientIds))
      ∧ (applyExcept s (updateRecipe s owner rid p)).ingredients = s.ingredients) := by
  cases hf : s.recipes.find? (fun r => r.id == rid && r.user == owner) with
  | none =>
    rw [updateRecipe_notFound s owner rid p hf]
    exact ⟨fun _ => ⟨rfl, rfl⟩, fun _ => ⟨rfl, rfl⟩⟩
  | some r0 =>
    rw [updateRecipe_found s owner rid p r0 hf, applyExcept_ok]
    constructor
    · intro hp
      have h2 : tagsStep (scalarStep s rid p) rid owner p = scalarStep s rid p := by
        simp [tagsStep, hp]
      constructor
      · rw [ingredientsStep_map _ rid owner p (fun r => (r.id, r.tagIds)) (fun r ids => rfl), h2]
        refine scalarStep_map s rid p _ ?_
        intro r
        simp [applyWritableScalars_id, applyWritableScalars_tagIds]
      · rw [(ingredientsStep_tags _ rid owner p).1, h2]
        rfl
    · intro hp
      have h3 : ingredientsStep (tagsStep (scalarStep s rid p) rid owner p) rid owner p =
          tagsStep (scalarStep s rid p) rid owner p := by
        simp [ingredientsStep, hp]
      constructor
      · rw [h3, tagsStep_map _ rid owner p (fun r => (r.id, r.ingredientIds)) (fun r ids => rfl)]
        refine scalarStep_map s rid p _ ?_
        intro r
        simp [applyWritableScalars_id, applyWritableScalars_ingredientIds]
      · rw [h3, (tagsStep_ingredients _ rid owner p).1]
        rfl

/-- C4: Reconciliation never deletes label rows: for every recipe update, the
tag table and the ingredient table after the operation extend the prior
tables — rows can only be appended, never removed or modified. -/
theorem labels_never_deleted (s : Db) (owner rid : Nat) (p : Payload) :
    (∃ ext, (applyExcept s (updateRecipe s owner rid p)).tags = s.tags ++ ext)
    ∧ (∃ ext, (applyExcept s (updateRecipe s owner rid p)).ingredients = s.ingredients ++ ext) := by
  cases hf : s.recipes.find? (fun r => r.id == rid && r.user == owner) with
  | none =>
    rw [updateRecipe_notFound s owner rid p hf]
    exact ⟨⟨[], by simp⟩, ⟨[], by simp⟩⟩
  | some r0 =>
    rw [updateRecipe_found s owner rid p r0 hf, applyExcept_ok]
    constructor
    · rw [(ingredientsStep_tags _ rid owner p).1]
      cases hp : p.tags with
      | none =>
        refine ⟨[], ?_⟩
        have h2 : tagsStep (scalarStep s rid p) rid owner p = scalarStep s rid p := by
          simp [tagsStep, hp]
        rw [h2]
        simp [scalarStep]
      | some names =>
        have h2 : tagsStep (scalarStep s rid p) rid owner p =
            reconcileTags (scalarStep s rid p) rid owner names := by
          simp [tagsStep, hp]
        rw [h2]
        obtain ⟨ext, he, _⟩ := resolveNames_labels_grow owner names
          ((scalarStep s rid p).tags) ((scalarStep s rid p).nextTagId)
        exact ⟨ext, he⟩
    · cases hp : p.ingredients with
      | none =>
        refine ⟨[], ?_⟩
        have h2 : ingredientsStep (tagsStep (scalarStep s rid p) rid owner p) rid owner p =
            tagsStep (scalarStep s rid p) rid owner p := by
          simp [ingredientsStep, hp]
        rw [h2, (tagsStep_ingredients _ rid owner p).1]
        simp [scalarStep]
      | some names =>
        have h2 : ingredientsStep (tagsStep (scalarStep s rid p) rid owner p) rid owner p =
            reconcileIngredients (tagsStep (scalarStep s rid p) rid owner p) rid owner names := by
          simp [ingredientsStep, hp]
        rw [h2]
        obtain ⟨ext, he, _⟩ := resolveNames_labels_grow owner names
          ((tagsStep (scalarStep s rid p) rid owner p).ingredients)
          ((tagsStep (scalarStep s rid p) rid owner p).nextIngredientId)
        refine ⟨ext, ?_⟩
        have hstep : (reconcileIngredients (tagsStep (scalarStep s rid p) rid owner p) rid owner names).ingredients =
            (tagsStep (scalarStep s rid p) rid owner p).ingredients ++ ext := he
        rw [hstep, (tagsStep_ingredients _ rid owner p).1]
        rfl

/-- C5: A recipe's owning user is immutable under update: for every update
payload — including one that explicitly supplies a different user value — the
(id, owner) pairs of all recipe rows are unchanged, and the write succeeds
rather than being rejected. -/
theorem owner_immutable_on_update (s : Db) (owner rid : Nat) (p : Payload)
    (hfind : (s.recipes.find? (fun r => r.id == rid && r.user == owner)).isSome) :
    (applyExcept s (updateRecipe s owner rid p)).recipes.map (fun r => (r.id, r.user)) =
      s.recipes.map (fun r => (r.id, r.user))
    ∧ ∃ s', updateRecipe s owner rid p = Except.ok s' := by
  obtain ⟨r0, hf⟩ := Option.isSome_iff_exists.mp hfind
  rw [updateRecipe_found s owner rid p r0 hf, applyExcept_ok]
  constructor
  · rw [ingredientsStep_map _ rid owner p (fun r => (r.id, r.user)) (fun r ids => rfl),
      tagsStep_map _ rid owner p (fun r => (r.id, r.user)) (fun r ids => rfl)]
    refine scalarStep_map s rid p _ ?_
    intro r
    simp [applyWritableScalars_id, applyWritableScalars_user]
  · exact ⟨_, rfl⟩

/-- C6: An operation targeting a recipe not owned by the requester yields a
not-found error (the error value is notFound, not the distinct forbidden
value), for delete as well as update, and the store — in particular the
targeted recipe row — is unchanged by the failed operation. -/
theorem cross_user_not_found (s : Db) (owner rid : Nat) (p : Payload) (r : Recipe)
    (hr : r ∈ s.recipes) (_hid : r.id = rid)
    (hothers : ∀ r' ∈ s.recipes, r'.id = rid → r'.user ≠ owner) :
    deleteRecipe s owner rid = Except.error ApiError.notFound
    ∧ updateRecipe s owner rid p = Except.error ApiError.notFound
    ∧ applyExcept s (deleteRecipe s owner rid) = s
    ∧ applyExcept s (updateRecipe s owner rid p) = s
    ∧ r ∈ (applyExcept s (deleteRecipe s owner rid)).recipes := by
  have hf : s.recipes.find? (fun r' => r'.id == rid && r'.user == owner) = none := by
    rw [List.find?_eq_none]
    intro x hx hpx
    simp only [Bool.and_eq_true, beq_iff_eq] at hpx
    exact hothers x hx hpx.1 hpx.2
  have hdel : deleteRecipe s owner rid = Except.error ApiError.notFound := by
    unfold deleteRecipe
    rw [hf]
  have hupd := updateRecipe_notFound s owner rid p hf
  refine ⟨hdel, hupd, by rw [hdel, applyExcept_error], by rw [hupd, applyExcept_error], ?_⟩
  rw [hdel, applyExcept_error]
  exact hr

/-- C7: Registration fails with a validation error whenever the email is
already registered or the password is shorter than the 5-character minimum,
and a rejected registration leaves the user store unchanged (no User row is
created). -/
theorem register_rejects_invalid (s : UserDb) (email pw nm : String)
    (h : s.users.any (fun u => u.email == email) = true ∨ pw.length < minPasswordLength) :
    register s email pw nm = Except.error ApiError.badRequest
    ∧ applyExcept s (register s email pw nm) = s := by
  have herr : register s email pw nm = Except.error ApiError.badRequest := by
    rcases h with ha | hlen
    · simp [register, ha]
    · by_cases ha : s.users.any (fun u => u.email == email) = true
      · simp [register, ha]
      · simp [register, ha, hlen]
  exact ⟨herr, by rw [herr, applyExcept_error]⟩

lemma serializeWith_keys (db : Db) (r : Recipe) :
    ∀ fields : List String, (serializeWith fields db r).map Prod.fst = fields := by
  intro fields
  induction fields with
  | nil => rfl
  | cons a t ih => simpa [serializeWith] using ih

/-- C8: The list representation of a recipe consists of id, title,
time_minutes, price, link, tags and ingredients; the detail representation
additionally includes description; the user field appears in neither
representation and is not writable through either serializer; and the
relation fields render as label name lists. -/
theorem serialized_recipe_shape (db : Db) (r : Recipe) :
    (serializeListView db r).map Prod.fst =
      ["id", "title", "time_minutes", "price", "link", "tags", "ingredients"]
    ∧ (serializeDetailView db r).map Prod.fst =
      ["id", "title", "time_minutes", "price", "link", "description", "tags", "ingredients"]
    ∧ ("user" ∉ (serializeListView db r).map Prod.fst)
    ∧ ("user" ∉ (serializeDetailView db r).map Prod.fst)
    ∧ ("description" ∉ (serializeListView db r).map Prod.fst)
    ∧ ("user" ∉ writableOf recipeSerializerFields)
    ∧ ("user" ∉ writableOf recipeDetailSerializerFields)
    ∧ (serializeListView db r).lookup "tags" =
        some (RepValue.names (labelNames db.tags r.tagIds))
    ∧ (serializeListView db r).lookup "ingredients" =
        some (RepValue.names (labelNames db.ingredients r.ingredientIds))
    ∧ (serializeDetailView db r).lookup "description" = some (RepValue.s r.description) := by
  have hL := serializeWith_keys db r recipeSerializerFields
  have hD := serializeWith_keys db r recipeDetailSerializerFields
  have hLlit : recipeSerializerFields =
      ["id", "title", "time_minutes", "price", "link", "tags", "ingredients"] := by rfl
  have hDlit : recipeDetailSerializerFields =
      ["id", "title", "time_minutes", "price", "link", "description", "tags", "ingredients"] := by
    rfl
  rw [hLlit] at hL
  rw [hDlit] at hD
  have h1 : (serializeListView db r).map Prod.fst =
      ["id", "title", "time_minutes", "price", "link", "tags", "ingredients"] := hL
  have h2 : (serializeDetailView db r).map Prod.fst =
      ["id", "title", "time_minutes", "price", "link", "description", "tags", "ingredients"] := hD
  refine ⟨h1, h2, ?_, ?_, ?_, by decide, by decide, ?_, ?_, ?_⟩
  · rw [h1]
    decide
  · rw [h2]
    decide
  · rw [h1]
    decide
  · rfl
  · rfl
  · rfl

/-- C9: The combined scalar-update-plus-reconciliation write is all-or-nothing:
whenever any step of label resolution fails and the transaction reports an
error, the observable store equals the store before the request — no
partially updated state is committed. -/
theorem combined_write_atomic (canCreate : String → Bool) (s : Db) (owner rid : Nat)
    (p : Payload) (e : ApiError)
    (h : updateRecipeTx canCreate s owner rid p = Except.error e) :
    applyExcept s (updateRecipeTx canCreate s owner rid p) = s := by
  rw [h, applyExcept_error]

/-- C10: The id field is read-only: it is excluded from the writable fields of
both serializers, an update leaves every recipe's id unchanged whatever the
payload contains (including an explicit id value), and a create assigns the
store's next primary key regardless of the payload. -/
theorem id_read_only (s : Db) (owner rid : Nat) (p : Payload) :
    (applyExcept s (updateRecipe s owner rid p)).recipes.map (fun r => r.id) =
      s.recipes.map (fun r => r.id)
    ∧ (createRecipe s owner p).recipes.map (fun r => r.id) =
      s.recipes.map (fun r => r.id) ++ [s.nextRecipeId]
    ∧ ("id" ∉ writableOf recipeSerializerFields)
    ∧ ("id" ∉ writableOf recipeDetailSerializerFields) := by
  refine ⟨?_, ?_, by decide, by decide⟩
  · cases hf : s.recipes.find? (fun r => r.id == rid && r.user == owner) with
    | none => rw [updateRecipe_notFound s owner rid p hf, applyExcept_error]
    | some r0 =>
      rw [updateRecipe_found s owner rid p r0 hf, applyExcept_ok]
      rw [ingredientsStep_map _ rid owner p (fun r => r.id) (fun r ids => rfl),
        tagsStep_map _ rid owner p (fun r => r.id) (fun r ids => rfl)]
      exact scalarStep_map s rid p _ (fun r => applyWritableScalars_id r p)
  · unfold createRecipe
    rw [ingredientsStep_map _ _ owner p (fun r => r.id) (fun r ids => rfl),
      tagsStep_map _ _ owner p (fun r => r.id) (fun r ids => rfl)]
    simp [newRecipeRow_id]

/-! ### Witnesses: the claim theorems applied at concrete store states -/

/-- Witness for C2, replacing both relation sets on update: tags by "Lunch"
(as in test_assign_tag_on_update) and ingredients by "Salt". -/
theorem labels_full_replacement_witness :
    (dbA.recipes.find? (fun r => r.id == 10 && r.user == 1)).isSome = true
    ∧ plLunchSalt.tags = some ["Lunch"]
    ∧ plLunchSalt.ingredients = some ["Salt"]
    ∧ ((∀ names, plLunchSalt.tags = some names →
        (∀ r' ∈ (applyExcept dbA (updateRecipe dbA 1 10 plLunchSalt)).recipes, r'.id = 10 →
            r'.tagIds = (resolveNames dbA.tags dbA.nextTagId 1 names).1)
        ∧ (names = [] →
            ∀ r' ∈ (applyExcept dbA (updateRecipe dbA 1 10 plLunchSalt)).recipes, r'.id = 10 →
              r'.tagIds = []))
      ∧ (∀ names, plLunchSalt.ingredients = some names →
        (∀ r' ∈ (applyExcept dbA (updateRecipe dbA 1 10 plLunchSalt)).recipes, r'.id = 10 →
            r'.ingredientIds = (resolveNames dbA.ingredients dbA.nextIngredientId 1 names).1)
        ∧ (names = [] →
            ∀ r' ∈ (applyExcept dbA (updateRecipe dbA 1 10 plLunchSalt)).recipes, r'.id = 10 →
              r'.ingredientIds = []))) :=
  ⟨by decide, by rfl, by rfl, labels_full_replacement dbA 1 10 plLunchSalt (by decide)⟩

/-- Witness for C3, at the partial-update scenario: payload carries only a new
title, neither a tags key nor an ingredients key. -/
theorem omitted_labels_untouched_witness :
    plTitleOnly.tags = none
    ∧ plTitleOnly.ingredients = none
    ∧ ((plTitleOnly.tags = none →
        (applyExcept dbA (updateRecipe dbA 1 10 plTitleOnly)).recipes.map (fun r => (r.id, r.tagIds)) =
          dbA.recipes.map (fun r => (r.id, r.tagIds))
        ∧ (applyExcept dbA (updateRecipe dbA 1 10 plTitleOnly)).tags = dbA.tags)
      ∧ (plTitleOnly.ingredients = none →
        (applyExcept dbA (updateRecipe dbA 1 10 plTitleOnly)).recipes.map (fun r => (r.id, r.ingredientIds)) =
          dbA.recipes.map (fun r => (r.id, r.ingredientIds))
        ∧ (applyExcept dbA (updateRecipe dbA 1 10 plTitleOnly)).ingredients = dbA.ingredients)) :=
  ⟨by rfl, by rfl, omitted_labels_untouched dbA 1 10 plTitleOnly⟩

/-- Witness for C5, at the update-user scenario: a payload explicitly carrying
a different user value. -/
theorem owner_immutable_on_update_witness :
    (dbA.recipes.find? (fun r => r.id == 10 && r.user == 1)).isSome = true
    ∧ ((applyExcept dbA (updateRecipe dbA 1 10 plUserChange)).recipes.map (fun r => (r.id, r.user)) =
        dbA.recipes.map (fun r => (r.id, r.user))
      ∧ ∃ s', updateRecipe dbA 1 10 plUserChange = Except.ok s') :=
  ⟨by decide, owner_immutable_on_update dbA 1 10 plUserChange (by decide)⟩

/-- Witness for C6, at the delete-other-users-recipe scenario: user 1 targets
user 2's recipe. -/
theorem cross_user_not_found_witness :
    recipeOfUser2 ∈ dbB.recipes
    ∧ recipeOfUser2.id = 10
    ∧ (∀ r' ∈ dbB.recipes, r'.id = 10 → r'.user ≠ 1)
    ∧ (deleteRecipe dbB 1 10 = Except.error ApiError.notFound
      ∧ updateRecipe dbB 1 10 plEmpty = Except.error ApiError.notFound
      ∧ applyExcept dbB (deleteRecipe dbB 1 10) = dbB
      ∧ applyExcept dbB (updateRecipe dbB 1 10 plEmpty) = dbB
      ∧ recipeOfUser2 ∈ (applyExcept dbB (deleteRecipe dbB 1 10)).recipes) :=
  ⟨by decide, by rfl, by decide,
   cross_user_not_found dbB 1 10 plEmpty recipeOfUser2 (by decide) (by rfl) (by decide)⟩

/-- Witness for C7, at the password-too-short scenario: password "pw". -/
theorem register_rejects_invalid_witness :
    "pw".length < minPasswordLength
    ∧ (register ⟨[]⟩ "test@example.com" "pw" "Test Name" = Except.error ApiError.badRequest
      ∧ applyExcept (⟨[]⟩ : UserDb) (register ⟨[]⟩ "test@example.com" "pw" "Test Name") =
          (⟨[]⟩ : UserDb)) :=
  ⟨by decide,
   register_rejects_invalid ⟨[]⟩ "test@example.com" "pw" "Test Name" (Or.inr (by decide))⟩

/-- Witness for C9: a store that refuses to create any new label row makes the
transactional write fail on the new name "New", and the observable store is
the original one. -/
theorem combined_write_atomic_witness :
    updateRecipeTx (fun _ => false) dbA 1 10 plTagsNew = Except.error ApiError.badRequest
    ∧ applyExcept dbA (updateRecipeTx (fun _ => false) dbA 1 10 plTagsNew) = dbA :=
  ⟨by rfl,
   combined_write_atomic (fun _ => false) dbA 1 10 plTagsNew ApiError.badRequest (by rfl)⟩

end RecipeApp
